import Mathlib

/-!
Verification of the answer-generation pipeline of the due-diligence
questionnaire backend (`backend/app/services/answer.py`).

The Python source is shallowly embedded:
  * Python `str` values are modelled as `List Char` (`Str`); `str.lower`,
    `in`, `strip`, `split`, `rsplit` are re-implemented below over
    ASCII semantics (all text handled by the pipeline is ASCII).
  * Python machine floats are modelled exactly: finite values as `Rat`,
    plus the special values `inf`, `-inf`, `nan` (`PyFloat`), with
    Python's `min`/`max` comparison semantics (comparisons against `nan`
    are always false). Decimal-string rounding to binary doubles is
    idealised away: a parsed decimal is kept as an exact rational, which
    never changes which side of the clamp bounds 0.0 / 1.0 a value lies on.
  * The OpenAI chat-completions client is modelled as an oracle
    `Str → Rat → Nat → LLMOutcome` giving, for every prompt and
    temperature, the outcome of the n-th attempt (the fixed configuration
    arguments `model` and `max_tokens` are process-wide constants and are
    not part of the oracle's domain); an outcome is either the list of
    returned choices (each with optional message content) or a raised
    exception carrying `str(e)`.
  * The SQLAlchemy session is modelled as the list of committed `Answer`
    rows, in insertion order; `query(Answer).filter(...).first()` is
    `List.find?`.
  * The retrieval collaborator `search_chunks` is modelled as an oracle
    `Str → Nat → Except Str (List Chunk)`; the `Except.error` case is the
    injection point for exceptions raised inside a single question's
    generation (used by the batch operations' `try/except`).
-/

namespace DD

/-- Python strings, as lists of characters. -/
abbrev Str := List Char

/-- Shorthand turning a Lean string literal into the `Str` model. -/
def str (s : String) : Str := s.data

/-- Python `str` whitespace for `strip()` / no-argument `split()` and the
regex class `\s`, restricted to ASCII: space, tab, newline, carriage
return, vertical tab, form feed. -/
def isPySpace (c : Char) : Bool :=
  c == ' ' || c == '\t' || c == '\n' || c == '\r' || c == '\x0b' || c == '\x0c'

/-- Python `str.lower()` (ASCII). -/
def lower (s : Str) : Str := s.map Char.toLower

/-- Python `str.strip()`: remove leading and trailing whitespace. -/
def stripWS (s : Str) : Str :=
  ((s.dropWhile isPySpace).reverse.dropWhile isPySpace).reverse

/-- Does `s` start with `p`? (`needle` test at one position.) -/
def begins : Str → Str → Bool
  | [], _ => true
  | _ :: _, [] => false
  | a :: as, b :: bs => a == b && begins as bs

/-- Python substring membership `needle in hay`: some position `i ≤ |hay|`
starts an occurrence (the empty needle is contained in everything, as in
Python). -/
def containsSub (needle hay : Str) : Bool :=
  (List.range (hay.length + 1)).any fun i => begins needle (hay.drop i)

/-- All positions of `hay` at which `needle` occurs, in increasing order. -/
def occPositions (needle hay : Str) : List Nat :=
  (List.range (hay.length + 1)).filter fun i => begins needle (hay.drop i)

/-- Python `s.rsplit(sep, 1)[0]` — the text strictly before the last
occurrence of `sep`; the whole string when `sep` does not occur, matching
`rsplit` returning `[s]`.  Faithful to CPython for separators that cannot
overlap themselves (such as `CONFIDENCE:`), which is the only way it is
used below. -/
def beforeLast (sep s : Str) : Str :=
  match (occPositions sep s).getLast? with
  | none => s
  | some i => s.take i

/-- Python `s.split(sep)[-1]` — the text strictly after the last occurrence
of `sep`; the whole string when `sep` does not occur. Same self-overlap
caveat as `beforeLast`. -/
def afterLast (sep s : Str) : Str :=
  match (occPositions sep s).getLast? with
  | none => s
  | some i => s.drop (i + sep.length)

/-- Python `s.split()[0]` as an `Option`: the first whitespace-delimited
token, or `none` when the string is all whitespace (the `IndexError`
branch). -/
def firstToken (s : Str) : Option Str :=
  let t := (s.dropWhile isPySpace).takeWhile (fun c => !isPySpace c)
  if t.isEmpty then none else some t

/-- Value of a string of ASCII digits, most significant first
(`int(ds)` for nonempty all-digit `ds`). -/
def digitsToNat (ds : Str) : Nat :=
  ds.foldl (fun acc c => acc * 10 + (c.toNat - '0'.toNat)) 0

/-- Python `str(n)` for a natural number. -/
def natToStr (n : Nat) : Str := (Nat.repr n).data

/-! ### Python floats -/

/-- A CPython float: a finite value (kept exact as a rational), or one of
the special values produced by `float("inf")`, `float("-inf")`,
`float("nan")`. -/
inductive PyFloat where
  | finite (q : Rat)
  | inf
  | negInf
  | nan
deriving DecidableEq

/-- Python `<` on floats: any comparison involving `nan` is false. -/
def pyLt : PyFloat → PyFloat → Bool
  | .nan, _ => false
  | _, .nan => false
  | .finite a, .finite b => a < b
  | .negInf, .negInf => false
  | .negInf, _ => true
  | _, .negInf => false
  | _, .inf => true
  | .inf, _ => false

/-- Python `min(a, b)`: returns `b` exactly when `b < a`. -/
def pyMin (a b : PyFloat) : PyFloat := if pyLt b a then b else a

/-- Python `max(a, b)`: returns `b` exactly when `a < b`. -/
def pyMax (a b : PyFloat) : PyFloat := if pyLt a b then b else a

/-- `max(0.0, min(1.0, c))` from the parser, extracted back to a rational;
the non-finite arms are unreachable because the clamp always produces a
finite value (`clampConf_mem` below). -/
def clampConf (c : PyFloat) : Rat :=
  match pyMax (.finite 0) (pyMin (.finite 1) c) with
  | .finite q => q
  | _ => 0

/-- Shape of a successfully lexed float token: sign, integer digits,
fraction digits and exponent, or one of the special tokens. -/
inductive FloatTok where
  | finiteTok (neg : Bool) (ip fp : Str) (e : Int)
  | infTok (neg : Bool)
  | nanTok
deriving DecidableEq

/-- Syntactic phase of Python `float(tok)` for a whitespace-free token:
the grammar `[+-]? (digits [. digits?] | . digits) ([eE] [+-]? digits)?`
plus the case-insensitive special tokens `inf`, `infinity`, `nan`.
(CPython additionally allows underscores between digits; tokens containing
underscores are treated as a parse failure here.)  `none` is the
`ValueError` branch. -/
def pyFloatLex (tok : Str) : Option FloatTok :=
  let (neg, rest) :=
    match tok with
    | '+' :: r => (false, r)
    | '-' :: r => (true, r)
    | r => (false, r)
  if lower rest = str "inf" || lower rest = str "infinity" then
    some (.infTok neg)
  else if lower rest = str "nan" then
    some .nanTok
  else
    let ip := rest.takeWhile Char.isDigit
    let r1 := rest.drop ip.length
    let fracced : Option (Str × Str × Str) :=
      match r1 with
      | '.' :: r2 =>
        let fp := r2.takeWhile Char.isDigit
        if ip.isEmpty && fp.isEmpty then none
        else some (ip, fp, r2.drop fp.length)
      | _ => if ip.isEmpty then none else some (ip, [], r1)
    match fracced with
    | none => none
    | some (ip, fp, r3) =>
      let expPart : Option Int :=
        match r3 with
        | [] => some 0
        | c :: r4 =>
          if c == 'e' || c == 'E' then
            let (eneg, r5) :=
              match r4 with
              | '+' :: r => (false, r)
              | '-' :: r => (true, r)
              | r => (false, r)
            let eds := r5.takeWhile Char.isDigit
            if eds.isEmpty || !(r5.drop eds.length).isEmpty then none
            else some (if eneg then -(digitsToNat eds : Int) else (digitsToNat eds : Int))
          else none
      match expPart with
      | none => none
      | some e => some (.finiteTok neg ip fp e)

/-- Numeric value of a lexed finite float literal, kept as an exact
rational. -/
def floatVal (neg : Bool) (ip fp : Str) (e : Int) : Rat :=
  let mant : Rat :=
    (digitsToNat ip : Rat) + (digitsToNat fp : Rat) / ((10 : Rat) ^ fp.length)
  let signed : Rat := if neg then -mant else mant
  if 0 ≤ e then signed * (10 : Rat) ^ e.toNat
  else signed / (10 : Rat) ^ (-e).toNat

/-- Python `float(tok)`: lex, then evaluate. -/
def pyFloatParse (tok : Str) : Option PyFloat :=
  (pyFloatLex tok).map fun t =>
    match t with
    | .finiteTok neg ip fp e => .finite (floatVal neg ip fp e)
    | .infTok neg => if neg then .negInf else .inf
    | .nanTok => .nan

/-! ### Response parser (`parse_answer_response`) -/

/-- Result of `parse_answer_response`: displayed text, confidence,
answerability flag. -/
structure Parsed where
  text : Str
  confidence : Rat
  is_answerable : Str
deriving DecidableEq

/-- The literal confidence marker. -/
def confMarker : Str := str "CONFIDENCE:"

/-- `parse_answer_response(response)`: extract the confidence score after
the last `CONFIDENCE:` marker (default 0.5, clamped to [0, 1]), the
answerability flag (`partial` iff `INSUFFICIENT_DATA` occurs), and the
displayed text (everything strictly before the last `CONFIDENCE:`,
stripped). -/
def parse_answer_response (response : Str) : Parsed :=
  let confidence : Rat :=
    if containsSub confMarker response then
      let conf_part := stripWS (afterLast confMarker response)
      match firstToken conf_part with
      | none => 1/2
      | some tok =>
        match pyFloatParse tok with
        | none => 1/2
        | some c => clampConf c
    else 1/2
  let is_answerable : Str :=
    if containsSub (str "INSUFFICIENT_DATA") response then str "partial" else str "yes"
  let answer_text : Str :=
    if containsSub confMarker response then stripWS (beforeLast confMarker response)
    else response
  { text := answer_text, confidence := confidence, is_answerable := is_answerable }

/-! ### Citation formatter (`extract_and_format_citations`) -/

/-- A retrieved chunk, as returned by the search collaborator: the dict
`{id, text, metadata: {doc_id, doc_name, page, chunk_index}, distance}`.
The metadata keys are modelled as always present (as the indexer produces
them; the `.get(..., default)` fallbacks in the source are then the
identity), and `distance` is never read by the pipeline so it is
omitted. -/
structure Chunk where
  id : String
  text : Str
  doc_id : String
  doc_name : Str
  page : Nat
  chunk_index : Nat
deriving DecidableEq

/-- One entry of the citation list built by the formatter. -/
structure Citation where
  doc_id : String
  doc_name : Str
  page : Nat
  text : Str
  chunk_id : String
  num : Nat
deriving DecidableEq

/-- `chunk["text"][:200] + "..." if len(chunk["text"]) > 200 else
chunk["text"]`. -/
def truncateExcerpt (t : Str) : Str :=
  if 200 < t.length then t.take 200 ++ str "..." else t

/-- The key `f"{doc_name}_p{page}"`. -/
def citationKey (doc_name : Str) (page : Nat) : Str :=
  doc_name ++ str "_p" ++ natToStr page

/-- One iteration of pass 1 of `extract_and_format_citations`: for a chunk
whose `(doc_name, page)` key is unseen and whose document name (or the
phrase `page <N>`) occurs case-insensitively in the answer text, append a
`Citation` numbered `len(citations) + 1` and record the key in the seen
set and the citation map. -/
def pass1Step (answer_text : Str) (acc : List Citation × List Str × List (Str × Nat))
    (chunk : Chunk) : List Citation × List Str × List (Str × Nat) :=
  let (citations, seen, citation_map) := acc
  let doc_name := chunk.doc_name
  let page := chunk.page
  let citation_key := citationKey doc_name page
  if seen.contains citation_key then acc
  else if containsSub (lower doc_name) (lower answer_text)
      || containsSub (str "page " ++ natToStr page) (lower answer_text) then
    let citation_num := citations.length + 1
    (citations ++ [{ doc_id := chunk.doc_id, doc_name := doc_name, page := page,
                     text := truncateExcerpt chunk.text, chunk_id := chunk.id,
                     num := citation_num }],
     seen ++ [citation_key],
     citation_map ++ [(citation_key, citation_num)])
  else acc

/-- Matcher for the tail `,?\s*Page\s*(\d+)<close>` of the two source
patterns, at the current position; `ci` selects case-insensitive literal
matching (the `re.IGNORECASE` flag).  Returns the captured page number and
the remaining text.  The greedy `,?` is deterministic here: when the
no-comma branch would be tried after a leading comma, `\s*Page` cannot
match at that comma, so preferring the comma is complete. -/
def tailMatch (ci : Bool) (close : Char) (s : Str) : Option (Nat × Str) :=
  let s1 := match s with
    | ',' :: r => r
    | r => r
  let s2 := s1.dropWhile isPySpace
  let litOk := if ci then begins (str "page") (lower s2) else begins (str "Page") s2
  if !litOk then none
  else
    let s3 := s2.drop 4
    let s4 := s3.dropWhile isPySpace
    let ds := s4.takeWhile Char.isDigit
    if ds.isEmpty then none
    else
      match s4.drop ds.length with
      | c :: rest => if c == close then some (digitsToNat ds, rest) else none
      | [] => none

/-- Matcher for `<openLit>\s*(<charset>+)` followed by `tailMatch`, at the
current position — the shared shape of the patterns
`\[Source:\s*([^,\]]+),?\s*Page\s*(\d+)\]` (case-insensitive) and
`\(Source:\s*[^,]+,?\s*Page\s*\d+\)` (case-sensitive).  `excl` is the
negated character class of the group.  Returns (raw group-1 capture, page,
rest after the match).

Greedy backtracking over `\s*` then `(<charset>+)` reduces to trying the
total consumed length `t` from the maximal charset run `R` down to 1
(the continuation depends only on `t`, and regex priority maximises the
`\s*` length first), with the `\s*` part taking `min(W, t - 1)`
characters, `W` being the maximal whitespace run — whitespace is inside
both character classes used here. -/
def matchSrcAt (ci : Bool) (openLit : Str) (excl : Char → Bool) (close : Char)
    (s : Str) : Option (Str × Nat × Str) :=
  let hd := s.take openLit.length
  let hdOk := if ci then lower hd = lower openLit else hd = openLit
  if ¬ hdOk then none
  else
    let s1 := s.drop openLit.length
    let W := (s1.takeWhile isPySpace).length
    let R := (s1.takeWhile (fun c => !excl c)).length
    ((List.range R).reverse.map (· + 1)).findSome? fun t =>
      match tailMatch ci close (s1.drop t) with
      | none => none
      | some (page, rest) =>
        let start := min W (t - 1)
        some ((s1.drop start).take (t - start), page, rest)

/-- `re.sub` scan for the pattern
`\[Source:\s*([^,\]]+),?\s*Page\s*(\d+)\]` with `re.IGNORECASE`, threading
the callback state of `replace_citation`: a known `(doc_name, page)` key is
replaced by its pass-1 number, an unknown one appends a fresh `Citation`
with empty `doc_id`/`text`/`chunk_id` and the next number.  `fuel` bounds
the recursion; every step consumes at least one character, so calling with
`fuel = text.length` never exhausts it (the fuel-out arm returns the rest
unchanged). -/
def pass2Sub (fuel : Nat) (text : Str) (citations : List Citation)
    (citation_map : List (Str × Nat)) : Str × List Citation × List (Str × Nat) :=
  match fuel, text with
  | _, [] => ([], citations, citation_map)
  | 0, t => (t, citations, citation_map)
  | f + 1, c :: rest =>
    match matchSrcAt true (str "[Source:") (fun ch => ch == ',' || ch == ']') ']'
        (c :: rest) with
    | none =>
      let rec1 := pass2Sub f rest citations citation_map
      (c :: rec1.1, rec1.2)
    | some (g1, page, after) =>
      let doc_name := stripWS g1
      let citation_key := citationKey doc_name page
      match (citation_map.find? fun kv => kv.1 == citation_key) with
      | some kv =>
        let rec1 := pass2Sub f after citations citation_map
        (str "[" ++ natToStr kv.2 ++ str "]" ++ rec1.1, rec1.2)
      | none =>
        let citation_num := citations.length + 1
        let newCit : Citation :=
          { doc_id := "", doc_name := doc_name, page := page, text := [],
            chunk_id := "", num := citation_num }
        let rec1 := pass2Sub f after (citations ++ [newCit])
          (citation_map ++ [(citation_key, citation_num)])
        (str "[" ++ natToStr citation_num ++ str "]" ++ rec1.1, rec1.2)

/-- `re.sub` scan deleting every match of the secondary pattern
`\(Source:\s*[^,]+,?\s*Page\s*\d+\)` (no `IGNORECASE` flag, so
case-sensitive). -/
def cleanupSub (fuel : Nat) (text : Str) : Str :=
  match fuel, text with
  | _, [] => []
  | 0, t => t
  | f + 1, c :: rest =>
    match matchSrcAt false (str "(Source:") (fun ch => ch == ',') ')' (c :: rest) with
    | none => c :: cleanupSub f rest
    | some (_, _, after) => cleanupSub f after

/-- `extract_and_format_citations(answer_text, context_chunks)`: pass 1
collects citations for mentioned chunks, pass 2 rewrites inline
`[Source: ..., Page N]` markers to `[num]` (appending entries for unknown
sources), and the secondary cleanup deletes stray `(Source: ..., Page N)`
annotations.  Returns the formatted text and the citation list. -/
def extract_and_format_citations (answer_text : Str) (context_chunks : List Chunk) :
    Str × List Citation :=
  let p1 := context_chunks.foldl (pass1Step answer_text) ([], [], [])
  let p2 := pass2Sub answer_text.length answer_text p1.1 p1.2.2
  (cleanupSub p2.1.length p2.1, p2.2.1)

/-! ### LLM gateway (`call_llm`) and prompt builders -/

/-- Outcome of one `client.chat.completions.create(...)` attempt: either
the returned list of choices (each carrying the optional
`message.content`), or a raised exception carrying `str(e)`. -/
inductive LLMOutcome where
  | success (choices : List (Option Str))
  | failure (msg : Str)

/-- The chat-completions client, as an oracle: for a prompt and a
temperature, the outcome of the n-th attempt made with those arguments. -/
abbrev Client := Str → Rat → Nat → LLMOutcome

/-- Configured temperatures (`Settings.answer_temp_a` etc.). -/
def answer_temp_a : Rat := 7/10
/-- `Settings.answer_temp_b`. -/
def answer_temp_b : Rat := 9/10
/-- `Settings.merge_temp`. -/
def merge_temp : Rat := 3/10

/-- `call_llm(prompt, temperature)`: a single `create` attempt (attempt
number 0 of the oracle — the body contains no loop, so no later attempt is
ever consulted); an empty choice list or a `None` content yields `""`, and
any exception is captured as the in-band string `"ERROR: " + str(e)`
instead of propagating. -/
def call_llm (client : Client) (prompt : Str) (temperature : Rat) : Str :=
  match client prompt temperature 0 with
  | .success [] => []
  | .success (c :: _) => c.getD []
  | .failure e => str "ERROR: " ++ e

/-- `build_answer_prompt(question, context_chunks)`. -/
def build_answer_prompt (question : Str) (context_chunks : List Chunk) : Str :=
  let context := List.intercalate (str "\n\n---\n\n")
    (context_chunks.map fun c =>
      str "[Source: " ++ c.doc_name ++ str ", Page " ++ natToStr c.page
        ++ str "]\n" ++ c.text)
  str "You are a due diligence analyst helping answer questionnaire questions based on provided documents.\n\nCONTEXT FROM DOCUMENTS:\n"
    ++ context
    ++ str "\n\nQUESTION: " ++ question
    ++ str "\n\nINSTRUCTIONS:\n1. Answer the question based ONLY on the provided context\n2. If the context doesn\x27t contain enough information, say \"INSUFFICIENT_DATA\" and explain what\x27s missing\n3. Include specific citations in your answer using the format [Source: DocName, Page X]\n4. Be concise but thorough\n5. Provide a confidence score (0.0 to 1.0) at the end in the format: CONFIDENCE: X.X\n\nANSWER:"

/-- `build_merge_prompt(question, answer_a, answer_b)`. -/
def build_merge_prompt (question answer_a answer_b : Str) : Str :=
  str "You are reviewing two AI-generated answers to the same due diligence question.\nYour task is to create the best possible final answer by:\n1. Selecting the more accurate and complete information from each\n2. Correcting any errors or inconsistencies\n3. Improving clarity and formatting\n4. Consolidating citations (remove duplicates, keep most specific)\n5. Determining the final confidence score\n\nQUESTION: "
    ++ question
    ++ str "\n\nANSWER A:\n" ++ answer_a
    ++ str "\n\nANSWER B:\n" ++ answer_b
    ++ str "\n\nCreate the optimal merged answer. Keep the same format with citations and end with CONFIDENCE: X.X\n\nFINAL ANSWER:"

/-! ### Answer orchestrator (`generate_answer`) -/

/-- A row of the `questions` table (the fields the pipeline reads). -/
structure Question where
  id : String
  question_text : Str
deriving DecidableEq

/-- A row of the `answers` table as the pipeline creates it (columns the
pipeline never writes — `manual_answer`, `created_at` — are omitted; the
columns it leaves at their defaults are stored with those defaults:
`""` for the variants, `[]` for citations). -/
structure Answer where
  id : String
  question_id : String
  ai_answer : Str
  answer_variant_a : Str
  answer_variant_b : Str
  citations : List Citation
  confidence : Rat
  is_answerable : Str
  status : Str
deriving DecidableEq

/-- The committed `answers` table, in insertion order. -/
abbrev DBState := List Answer

/-- `db.query(Answer).filter(Answer.question_id == qid).first()`. -/
def findAnswer (db : DBState) (qid : String) : Option Answer :=
  db.find? fun a => a.question_id == qid

/-- The external collaborators of one `generate_answer` run: the search
service (whose `Except.error` case models an exception raised inside the
call), the LLM client oracle, and the `uuid4()` value drawn for a newly
created row. -/
structure Env where
  search : Str → Nat → Except Str (List Chunk)
  client : Client
  fresh : String

/-- `AnswerStatus.GENERATED.value`. -/
def statusGenerated : Str := str "GENERATED"

/-- `generate_answer(question, db)`: return the existing answer unchanged
if one exists; otherwise retrieve chunks (k = 8), short-circuit with a
fixed zero-confidence record when none are returned, and otherwise run the
two parallel variant calls, the merge call, the parser and the citation
formatter, committing the new row.  The result carries the returned
`Answer`, the committed table, and the number of LLM calls issued;
`Except.error` propagates an exception raised by retrieval (caught only by
the batch callers). -/
def generate_answer (env : Env) (question : Question) (db : DBState) :
    Except Str (Answer × DBState × Nat) :=
  match findAnswer db question.id with
  | some existing => .ok (existing, db, 0)
  | none =>
    match env.search question.question_text 8 with
    | .error e => .error e
    | .ok [] =>
      let answer : Answer :=
        { id := env.fresh, question_id := question.id,
          ai_answer := str "No documents have been indexed yet. Please upload and index documents first.",
          answer_variant_a := [], answer_variant_b := [], citations := [],
          confidence := 0, is_answerable := str "no", status := statusGenerated }
      .ok (answer, db ++ [answer], 0)
    | .ok (c :: cs) =>
      let chunks := c :: cs
      let prompt := build_answer_prompt question.question_text chunks
      let answer_a := call_llm env.client prompt answer_temp_a
      let answer_b := call_llm env.client prompt answer_temp_b
      let merge_prompt := build_merge_prompt question.question_text answer_a answer_b
      let final_answer_raw := call_llm env.client merge_prompt merge_temp
      let parsed := parse_answer_response final_answer_raw
      let fc := extract_and_format_citations parsed.text chunks
      let answer : Answer :=
        { id := env.fresh, question_id := question.id,
          ai_answer := fc.1,
          answer_variant_a := answer_a, answer_variant_b := answer_b,
          citations := fc.2,
          confidence := parsed.confidence, is_answerable := parsed.is_answerable,
          status := statusGenerated }
      .ok (answer, db ++ [answer], 3)

/-! ### Project-level batch operations -/

/-- A row of the `projects` table with its questions. -/
structure Project where
  id : String
  questions : List Question

/-- The dict returned by `generate_answers_for_project`; an error entry is
`(question_id, str(e))`. -/
structure BatchResult where
  project_id : String
  total : Nat
  generated : Nat
  errors : List (String × Str)
deriving DecidableEq

/-- One iteration of the non-streaming batch loop: run `generate_answer`
under `try`, counting a success or recording `{question_id, error}` and
carrying on.  The `Nat` component indexes the per-iteration environment
(each iteration draws its own uuid and LLM outcomes). -/
def batchStep (envs : Nat → Env) (acc : BatchResult × DBState × Nat)
    (question : Question) : BatchResult × DBState × Nat :=
  let (results, db, k) := acc
  match generate_answer (envs k) question db with
  | .ok (_, db', _) =>
    ({ results with generated := results.generated + 1 }, db', k + 1)
  | .error e =>
    ({ results with errors := results.errors ++ [(question.id, e)] }, db, k + 1)

/-- `generate_answers_for_project(project, db)`: sequential per-question
loop with partial-failure semantics; returns
`{project_id, total, generated, errors}` and the final table. -/
def generate_answers_for_project (envs : Nat → Env) (project : Project)
    (db : DBState) : BatchResult × DBState :=
  let init : BatchResult × DBState × Nat :=
    ({ project_id := project.id, total := project.questions.length,
       generated := 0, errors := [] }, db, 0)
  let out := project.questions.foldl (batchStep envs) init
  (out.1, out.2.1)

/-! ### Streaming batch generator
(`generate_answers_for_project_with_progress`) -/

/-- An SSE event yielded by the streaming generator. -/
inductive Event where
  | progress (question_num total : Nat) (stage : Str) (question_preview : Str)
  | error (question_num total : Nat) (err : Str)
  | complete (project_id : String) (total generated : Nat)
      (errors : List (String × Str))

/-- `question.question_text[:50] + "..."` (the ellipsis is appended
unconditionally in the source). -/
def questionPreview (question : Question) : Str :=
  question.question_text.take 50 ++ str "..."

/-- Accumulated state of the streaming generator: yielded events, the
committed table, counters, the per-question error list, the total number
of LLM calls issued so far, and the index of the next question (whence
`question_num = idx + 1` and the per-iteration environment). -/
structure StreamState where
  events : List Event
  db : DBState
  generated : Nat
  errors : List (String × Str)
  llmCalls : Nat
  idx : Nat

/-- One iteration of the streaming generator's loop over
`project.questions`: yield `starting` and `retrieving_context`, short-cut
with a `cached` event when an answer exists, commit the fixed
`"No documents indexed."` record on empty retrieval (no further event,
zero LLM calls), and otherwise run the full pipeline (three LLM calls)
with `parallel_generation` / `merging` / `complete` events; a retrieval
exception is caught, appended to the error list and yielded as an `error`
event without stopping the loop. -/
def streamStep (envs : Nat → Env) (total : Nat) (st : StreamState)
    (question : Question) : StreamState :=
  let env := envs st.idx
  let q_num := st.idx + 1
  let pv := questionPreview question
  let ev0 := [Event.progress q_num total (str "starting") pv,
              Event.progress q_num total (str "retrieving_context") pv]
  match findAnswer st.db question.id with
  | some _ =>
    { st with
      events := st.events ++ ev0 ++ [Event.progress q_num total (str "cached") pv],
      generated := st.generated + 1, idx := st.idx + 1 }
  | none =>
    match env.search question.question_text 8 with
    | .error e =>
      { st with
        events := st.events ++ ev0 ++ [Event.error q_num total e],
        errors := st.errors ++ [(question.id, e)], idx := st.idx + 1 }
    | .ok [] =>
      let answer : Answer :=
        { id := env.fresh, question_id := question.id,
          ai_answer := str "No documents indexed.",
          answer_variant_a := [], answer_variant_b := [], citations := [],
          confidence := 0, is_answerable := str "no", status := statusGenerated }
      { st with
        events := st.events ++ ev0,
        db := st.db ++ [answer],
        generated := st.generated + 1, idx := st.idx + 1 }
    | .ok (c :: cs) =>
      let chunks := c :: cs
      let prompt := build_answer_prompt question.question_text chunks
      let answer_a := call_llm env.client prompt answer_temp_a
      let answer_b := call_llm env.client prompt answer_temp_b
      let merge_prompt := build_merge_prompt question.question_text answer_a answer_b
      let final_answer_raw := call_llm env.client merge_prompt merge_temp
      let parsed := parse_answer_response final_answer_raw
      let fc := extract_and_format_citations parsed.text chunks
      let answer : Answer :=
        { id := env.fresh, question_id := question.id,
          ai_answer := fc.1,
          answer_variant_a := answer_a, answer_variant_b := answer_b,
          citations := fc.2,
          confidence := parsed.confidence, is_answerable := parsed.is_answerable,
          status := statusGenerated }
      { st with
        events := st.events
          ++ ev0
          ++ [Event.progress q_num total (str "parallel_generation") pv,
              Event.progress q_num total (str "merging") pv,
              Event.progress q_num total (str "complete") pv],
        db := st.db ++ [answer],
        generated := st.generated + 1,
        llmCalls := st.llmCalls + 3, idx := st.idx + 1 }

/-- `generate_answers_for_project_with_progress(project, db)`: the event
stream (terminated by the `complete` summary event) together with the
final state. -/
def generate_answers_for_project_with_progress (envs : Nat → Env)
    (project : Project) (db : DBState) : StreamState :=
  let total := project.questions.length
  let st0 : StreamState :=
    { events := [], db := db, generated := 0, errors := [], llmCalls := 0, idx := 0 }
  let st := project.questions.foldl (streamStep envs total) st0
  { st with
    events := st.events
      ++ [Event.complete project.id total st.generated st.errors] }

/-! ### Helper lemmas -/

/-- The clamp `max(0.0, min(1.0, c))` always produces a finite value
inside `[0, 1]`, whatever float (including `nan` and the infinities) the
confidence token parsed to. -/
theorem clampConf_mem (c : PyFloat) : 0 ≤ clampConf c ∧ clampConf c ≤ 1 := by
  cases c with
  | finite q =>
    by_cases h1 : q < 1
    · by_cases h0 : (0 : Rat) < q
      · simp only [clampConf, pyMin, pyMax, pyLt]
        simp [h1, h0]
        exact ⟨le_of_lt h0, le_of_lt h1⟩
      · simp only [clampConf, pyMin, pyMax, pyLt]
        simp [h1, h0]
    · simp only [clampConf, pyMin, pyMax, pyLt]
      simp [h1]
  | inf => simp [clampConf, pyMin, pyMax, pyLt]
  | negInf => simp [clampConf, pyMin, pyMax, pyLt]
  | nan => simp [clampConf, pyMin, pyMax, pyLt]

/-- A value already at or above 1 clamps to exactly 1. -/
theorem clampConf_of_one_le (q : Rat) (h : 1 ≤ q) : clampConf (.finite q) = 1 := by
  simp only [clampConf, pyMin, pyMax, pyLt]
  simp [not_lt.mpr h]

/-- A value at or below 0 clamps to exactly 0. -/
theorem clampConf_of_le_zero (q : Rat) (h : q ≤ 0) : clampConf (.finite q) = 0 := by
  have h1 : q < 1 := lt_of_le_of_lt h (by norm_num)
  simp only [clampConf, pyMin, pyMax, pyLt]
  simp [h1, not_lt.mpr h]

/-- Branch analysis of the parsed confidence once the marker is present
and the token after the last marker is known: a failed `float` gives the
default `0.5`, a successful one the clamped value. -/
theorem parseConf_branches (r tok : Str)
    (hc : containsSub confMarker r = true)
    (ht : firstToken (stripWS (afterLast confMarker r)) = some tok) :
    (pyFloatParse tok = none → (parse_answer_response r).confidence = 1/2)
  ∧ (∀ pf, pyFloatParse tok = some pf →
      (parse_answer_response r).confidence = clampConf pf) := by
  constructor
  · intro hp
    simp only [parse_answer_response, hc, if_true, ht, hp]
  · intro pf hp
    simp only [parse_answer_response, hc, if_true, ht, hp]

/-- The parsed confidence, in every branch of the parser, is `1/2` or a
clamped value; hence it lies in `[0, 1]`. -/
theorem parseConf_mem (response : Str) :
    0 ≤ (parse_answer_response response).confidence
      ∧ (parse_answer_response response).confidence ≤ 1 := by
  simp only [parse_answer_response]
  split
  · split
    · norm_num
    · split
      · norm_num
      · exact clampConf_mem _
  · norm_num

/-- `find?` over an append skips a hitless first part. -/
theorem find?_append_of_none {α : Type} (p : α → Bool) (l1 l2 : List α)
    (h : l1.find? p = none) : (l1 ++ l2).find? p = l2.find? p := by
  induction l1 with
  | nil => simp
  | cons a as ih =>
    cases hpa : p a with
    | false =>
      rw [List.find?_cons_of_neg _ (by simp [hpa])] at h
      rw [List.cons_append, List.find?_cons_of_neg _ (by simp [hpa])]
      exact ih h
    | true =>
      rw [List.find?_cons_of_pos _ hpa] at h
      cases h

/-- `find?` over an append keeps a hit from the first part. -/
theorem find?_append_of_some {α : Type} (p : α → Bool) (l1 l2 : List α) (a : α)
    (h : l1.find? p = some a) : (l1 ++ l2).find? p = some a := by
  induction l1 with
  | nil => cases h
  | cons x xs ih =>
    cases hpx : p x with
    | false =>
      rw [List.find?_cons_of_neg _ (by simp [hpx])] at h
      rw [List.cons_append, List.find?_cons_of_neg _ (by simp [hpx])]
      exact ih h
    | true =>
      rw [List.find?_cons_of_pos _ hpx] at h
      rw [List.cons_append, List.find?_cons_of_pos _ hpx]
      exact h

/-- Committing a row for a question that had none makes it the row found
for that question. -/
theorem findAnswer_append_self (db : DBState) (a : Answer)
    (h : findAnswer db a.question_id = none) :
    findAnswer (db ++ [a]) a.question_id = some a := by
  unfold findAnswer at h ⊢
  rw [find?_append_of_none _ _ _ h]
  simp [List.find?]

/-- A row already found for a question is still found after further rows
are appended. -/
theorem findAnswer_append_of_some (db db2 : DBState) (qid : String) (a : Answer)
    (h : findAnswer db qid = some a) : findAnswer (db ++ db2) qid = some a :=
  find?_append_of_some _ _ _ _ h

/-! ### Claim theorems -/

/-- Claim C3: the LLM gateway `call_llm` returns a string for every
outcome of the single attempt it makes (modelled by the total return type
`Str`, with an exception mapped to the in-band value
`"ERROR: " + str(e)`), consults only attempt 0 of the client oracle (no
retries), and prefixes the exception message with `"ERROR: "` on any
failure. -/
theorem call_llm_one_attempt_error_in_band (client client2 : Client)
    (prompt : Str) (temperature : Rat)
    (hagree : client prompt temperature 0 = client2 prompt temperature 0) :
    call_llm client prompt temperature = call_llm client2 prompt temperature
  ∧ (∀ e, client prompt temperature 0 = .failure e →
      call_llm client prompt temperature = str "ERROR: " ++ e) := by
  constructor
  · simp only [call_llm, hagree]
  · intro e he
    simp only [call_llm, he]

/-- Witness for C3: a client that always raises `boom` yields the in-band
string `ERROR: boom`, and a retrying variant of the oracle is never
consulted. -/
theorem call_llm_one_attempt_error_in_band_witness :
    call_llm (fun _ _ _ => .failure (str "boom")) (str "p") 0 = str "ERROR: boom" :=
  (call_llm_one_attempt_error_in_band
    (fun _ _ _ => .failure (str "boom"))
    (fun _ _ _ => .failure (str "boom")) (str "p") 0 rfl).2 (str "boom") rfl

/-- Claim C6: the parser flags answerability `partial` exactly when the
sentinel `INSUFFICIENT_DATA` occurs in the raw response, `yes` otherwise,
and produces no other value. -/
theorem parse_answerability_sentinel (response : Str) :
    ((parse_answer_response response).is_answerable = str "partial"
      ↔ containsSub (str "INSUFFICIENT_DATA") response = true)
  ∧ (containsSub (str "INSUFFICIENT_DATA") response = false →
      (parse_answer_response response).is_answerable = str "yes")
  ∧ ((parse_answer_response response).is_answerable = str "partial"
      ∨ (parse_answer_response response).is_answerable = str "yes") := by
  simp only [parse_answer_response]
  rcases h : containsSub (str "INSUFFICIENT_DATA") response
  · simp [h]
    decide
  · simp [h]

/-- Witness for C6: a response containing the sentinel parses to
`partial`; one without it parses to `yes`. -/
theorem parse_answerability_sentinel_witness :
    (parse_answer_response (str "alas INSUFFICIENT_DATA here")).is_answerable
        = str "partial"
  ∧ (parse_answer_response (str "all good")).is_answerable = str "yes" :=
  ⟨(parse_answerability_sentinel (str "alas INSUFFICIENT_DATA here")).1.mpr
      (by decide),
   (parse_answerability_sentinel (str "all good")).2.1 (by decide)⟩

/-- Claim C4: the parsed confidence always lies in `[0, 1]`; a missing
`CONFIDENCE:` marker keeps the default `0.5`, as does a malformed token;
and the spec's concrete cases hold: a trailing `CONFIDENCE: 1.7` clamps to
`1.0` and `CONFIDENCE: -0.3` clamps to `0.0`. -/
theorem parse_confidence_clamped (response : Str) :
    (0 ≤ (parse_answer_response response).confidence
      ∧ (parse_answer_response response).confidence ≤ 1)
  ∧ (containsSub confMarker response = false →
      (parse_answer_response response).confidence = 1/2)
  ∧ (parse_answer_response (str "blah CONFIDENCE: 1.7")).confidence = 1
  ∧ (parse_answer_response (str "blah CONFIDENCE: -0.3")).confidence = 0
  ∧ (parse_answer_response (str "blah CONFIDENCE: zero")).confidence = 1/2 := by
  refine ⟨parseConf_mem response, ?_, ?_, ?_, ?_⟩
  · intro h
    simp only [parse_answer_response, h]
    norm_num
  · have hp : pyFloatParse (str "1.7") = some (.finite (floatVal false (str "1") (str "7") 0)) := by
      have hl : pyFloatLex (str "1.7") = some (.finiteTok false (str "1") (str "7") 0) := by
        decide
      simp [pyFloatParse, hl]
    have h17 : floatVal false (str "1") (str "7") 0 = 17/10 := by
      have d1 : digitsToNat (str "1") = 1 := by decide
      have d7 : digitsToNat (str "7") = 7 := by decide
      have dl : (str "7").length = 1 := by decide
      simp [floatVal, d1, d7, dl]
      norm_num
    have := (parseConf_branches (str "blah CONFIDENCE: 1.7") (str "1.7")
      (by decide) (by decide)).2 _ hp
    rw [this, h17, clampConf_of_one_le]
    norm_num
  · have hp : pyFloatParse (str "-0.3") = some (.finite (floatVal true (str "0") (str "3") 0)) := by
      have hl : pyFloatLex (str "-0.3") = some (.finiteTok true (str "0") (str "3") 0) := by
        decide
      simp [pyFloatParse, hl]
    have h03 : floatVal true (str "0") (str "3") 0 = -(3/10) := by
      have d0 : digitsToNat (str "0") = 0 := by decide
      have d3 : digitsToNat (str "3") = 3 := by decide
      have dl : (str "3").length = 1 := by decide
      simp [floatVal, d0, d3, dl]
    have := (parseConf_branches (str "blah CONFIDENCE: -0.3") (str "-0.3")
      (by decide) (by decide)).2 _ hp
    rw [this, h03, clampConf_of_le_zero]
    norm_num
  · have hp : pyFloatParse (str "zero") = none := by decide
    exact (parseConf_branches (str "blah CONFIDENCE: zero") (str "zero")
      (by decide) (by decide)).1 hp

/-- Witness for C4: at the marker-free input `no marker`, the default
`0.5` is returned and lies in `[0, 1]`. -/
theorem parse_confidence_clamped_witness :
    (0 ≤ (parse_answer_response (str "no marker")).confidence
      ∧ (parse_answer_response (str "no marker")).confidence ≤ 1)
  ∧ (parse_answer_response (str "no marker")).confidence = 1/2 :=
  ⟨(parse_confidence_clamped (str "no marker")).1,
   (parse_confidence_clamped (str "no marker")).2.1 (by decide)⟩

/-- After a successful `generate_answer`, the returned record is the row
found for the question in the returned table: it was either pre-existing
or has just been committed at the end of a table that had no row for the
question. -/
theorem generate_answer_ok_find (env : Env) (question : Question) (db : DBState)
    (a : Answer) (db1 : DBState) (n : Nat)
    (h : generate_answer env question db = .ok (a, db1, n)) :
    findAnswer db1 question.id = some a := by
  rcases hf : findAnswer db question.id with _ | existing
  · rcases hs : env.search question.question_text 8 with e | chunks
    · simp only [generate_answer, hf, hs] at h
      cases h
    · rcases chunks with _ | ⟨c, cs⟩
      · simp only [generate_answer, hf, hs, Except.ok.injEq, Prod.mk.injEq] at h
        obtain ⟨ha, hdb, -⟩ := h
        subst ha; subst hdb
        exact findAnswer_append_self db _ hf
      · simp only [generate_answer, hf, hs, Except.ok.injEq, Prod.mk.injEq] at h
        obtain ⟨ha, hdb, -⟩ := h
        subst ha; subst hdb
        exact findAnswer_append_self db _ hf
  · simp only [generate_answer, hf, Except.ok.injEq, Prod.mk.injEq] at h
    obtain ⟨ha, hdb, -⟩ := h
    subst ha; subst hdb
    exact hf

/-- A successful `generate_answer` leaves the table unchanged or appends
exactly the returned record. -/
theorem generate_answer_ok_db (env : Env) (question : Question) (db : DBState)
    (a : Answer) (db1 : DBState) (n : Nat)
    (h : generate_answer env question db = .ok (a, db1, n)) :
    db1 = db ∨ db1 = db ++ [a] := by
  rcases hf : findAnswer db question.id with _ | existing
  · rcases hs : env.search question.question_text 8 with e | chunks
    · simp only [generate_answer, hf, hs] at h
      cases h
    · rcases chunks with _ | ⟨c, cs⟩
      · simp only [generate_answer, hf, hs, Except.ok.injEq, Prod.mk.injEq] at h
        obtain ⟨ha, hdb, -⟩ := h
        subst ha; subst hdb
        right; rfl
      · simp only [generate_answer, hf, hs, Except.ok.injEq, Prod.mk.injEq] at h
        obtain ⟨ha, hdb, -⟩ := h
        subst ha; subst hdb
        right; rfl
  · simp only [generate_answer, hf, Except.ok.injEq, Prod.mk.injEq] at h
    obtain ⟨ha, hdb, -⟩ := h
    subst ha; subst hdb
    left; rfl

/-- Claim C1: when an answer row already exists for a question,
`generate_answer` returns that row unchanged with the table untouched and
zero LLM calls issued; consequently a second call right after any
successful call returns exactly the record stored by the first call,
again without touching the table or the LLM. -/
theorem generate_answer_idempotent (env env2 : Env) (question : Question)
    (db : DBState) :
    (∀ a, findAnswer db question.id = some a →
        generate_answer env question db = .ok (a, db, 0))
  ∧ (∀ a db1 n, generate_answer env question db = .ok (a, db1, n) →
        generate_answer env2 question db1 = .ok (a, db1, 0)) := by
  constructor
  · intro a ha
    simp only [generate_answer, ha]
  · intro a db1 n h
    have hfind := generate_answer_ok_find env question db a db1 n h
    simp only [generate_answer, hfind]

/-- Witness for C1: a one-row table with an existing answer for `q1` is
returned as-is with zero LLM calls, and calling twice returns the same
stored record. -/
theorem generate_answer_idempotent_witness :
    (generate_answer
        ⟨fun _ _ => .ok [], fun _ _ _ => .failure (str "down"), "u2"⟩
        ⟨"q1", str "What is it?"⟩
        [{ id := "a1", question_id := "q1", ai_answer := str "text",
           answer_variant_a := [], answer_variant_b := [], citations := [],
           confidence := 0, is_answerable := str "yes",
           status := statusGenerated }]
      = .ok ({ id := "a1", question_id := "q1", ai_answer := str "text",
               answer_variant_a := [], answer_variant_b := [], citations := [],
               confidence := 0, is_answerable := str "yes",
               status := statusGenerated },
             [{ id := "a1", question_id := "q1", ai_answer := str "text",
                answer_variant_a := [], answer_variant_b := [], citations := [],
                confidence := 0, is_answerable := str "yes",
                status := statusGenerated }], 0)) := by
  exact (generate_answer_idempotent
    ⟨fun _ _ => .ok [], fun _ _ _ => .failure (str "down"), "u2"⟩
    ⟨fun _ _ => .ok [], fun _ _ _ => .failure (str "down"), "u2"⟩
    ⟨"q1", str "What is it?"⟩ _).1 _ rfl

/-- Counterexample to claim C2 as stated: on a zero-chunk question the
streaming batch generator stores the text `No documents indexed.`, which
is not the placeholder `No documents have been indexed yet...` the claim
asserts for both paths (it does not even begin with it). -/
theorem zero_chunk_placeholder_cex :
    ((generate_answers_for_project_with_progress
        (fun _ => ⟨fun _ _ => .ok [], fun _ _ _ => .failure (str "x"), "u1"⟩)
        ⟨"p1", [⟨"q1", str "Any docs?"⟩]⟩ []).db.map fun a => a.ai_answer)
      = [str "No documents indexed."]
  ∧ begins (str "No documents have been indexed yet")
      (str "No documents indexed.") = false
  ∧ str "No documents indexed."
      ≠ str "No documents have been indexed yet. Please upload and index documents first." := by
  exact ⟨by decide, by decide, by decide⟩

/-- Claim C2 (amended): on a question with no stored answer whose
retrieval returns zero chunks, both paths store and return a terminal
answer with confidence 0.0, answerability `no`, status `GENERATED` and
zero LLM calls; `generate_answer` uses the fixed text
`No documents have been indexed yet. Please upload and index documents
first.` while the streaming batch generator uses the fixed text
`No documents indexed.`. -/
theorem zero_chunk_fast_path (env : Env) (envs : Nat → Env) (pid : String)
    (question : Question) (db : DBState)
    (h1 : findAnswer db question.id = none)
    (h2 : env.search question.question_text 8 = .ok [])
    (h3 : (envs 0).search question.question_text 8 = .ok []) :
    (∃ a : Answer,
      generate_answer env question db = .ok (a, db ++ [a], 0)
      ∧ a.ai_answer
          = str "No documents have been indexed yet. Please upload and index documents first."
      ∧ a.confidence = 0 ∧ a.is_answerable = str "no" ∧ a.status = statusGenerated)
  ∧ ((generate_answers_for_project_with_progress envs ⟨pid, [question]⟩ db).llmCalls = 0
     ∧ ∃ a : Answer,
        (generate_answers_for_project_with_progress envs ⟨pid, [question]⟩ db).db
          = db ++ [a]
        ∧ a.ai_answer = str "No documents indexed."
        ∧ a.confidence = 0 ∧ a.is_answerable = str "no"
        ∧ a.status = statusGenerated) := by
  constructor
  · refine ⟨⟨env.fresh, question.id,
        str "No documents have been indexed yet. Please upload and index documents first.",
        [], [], [], 0, str "no", statusGenerated⟩, ?_, rfl, rfl, rfl, rfl⟩
    simp only [generate_answer, h1, h2]
  · constructor
    · simp only [generate_answers_for_project_with_progress, List.foldl, streamStep,
        h1, h3]
    · refine ⟨⟨(envs 0).fresh, question.id, str "No documents indexed.",
          [], [], [], 0, str "no", statusGenerated⟩, ?_, rfl, rfl, rfl, rfl⟩
      simp only [generate_answers_for_project_with_progress, List.foldl, streamStep,
        h1, h3]

/-- Witness for C2 (amended): a concrete one-question project with an
empty index exercises both zero-chunk fast paths with zero LLM calls. -/
theorem zero_chunk_fast_path_witness :
    (∃ a : Answer,
      generate_answer ⟨fun _ _ => .ok [], fun _ _ _ => .failure (str "y"), "u3"⟩
          ⟨"q1", str "Q?"⟩ [] = .ok (a, [] ++ [a], 0)
      ∧ a.ai_answer
          = str "No documents have been indexed yet. Please upload and index documents first."
      ∧ a.confidence = 0 ∧ a.is_answerable = str "no" ∧ a.status = statusGenerated)
  ∧ ((generate_answers_for_project_with_progress
        (fun _ => ⟨fun _ _ => .ok [], fun _ _ _ => .failure (str "y"), "u3"⟩)
        ⟨"p1", [⟨"q1", str "Q?"⟩]⟩ []).llmCalls = 0
     ∧ ∃ a : Answer,
        (generate_answers_for_project_with_progress
            (fun _ => ⟨fun _ _ => .ok [], fun _ _ _ => .failure (str "y"), "u3"⟩)
            ⟨"p1", [⟨"q1", str "Q?"⟩]⟩ []).db = [] ++ [a]
        ∧ a.ai_answer = str "No documents indexed."
        ∧ a.confidence = 0 ∧ a.is_answerable = str "no"
        ∧ a.status = statusGenerated) :=
  zero_chunk_fast_path
    ⟨fun _ _ => .ok [], fun _ _ _ => .failure (str "y"), "u3"⟩
    (fun _ => ⟨fun _ _ => .ok [], fun _ _ _ => .failure (str "y"), "u3"⟩)
    "p1" ⟨"q1", str "Q?"⟩ [] rfl rfl rfl

/-! ### Occurrence lemmas for the `CONFIDENCE:` split -/

/-- `begins p s` holds exactly when `s` extends `p`. -/
theorem begins_iff (p s : Str) : begins p s = true ↔ ∃ t, s = p ++ t := by
  induction p generalizing s with
  | nil =>
    simp [begins]
  | cons a as ih =>
    cases s with
    | nil =>
      simp [begins]
    | cons b bs =>
      simp only [begins, Bool.and_eq_true, beq_iff_eq, ih, List.cons_append,
        List.cons.injEq]
      constructor
      · rintro ⟨hab, t, ht⟩
        exact ⟨t, hab.symm, ht⟩
      · rintro ⟨t, hba, ht⟩
        exact ⟨hba.symm, t, ht⟩

/-- `p` begins every string of the form `p ++ t`. -/
theorem begins_append (p t : Str) : begins p (p ++ t) = true :=
  (begins_iff p (p ++ t)).mpr ⟨t, rfl⟩

/-- Membership in substring search: some start position works. -/
theorem containsSub_iff (needle hay : Str) :
    containsSub needle hay = true
      ↔ ∃ i, i ≤ hay.length ∧ begins needle (hay.drop i) = true := by
  simp only [containsSub, List.any_eq_true, List.mem_range, Nat.lt_succ_iff]

/-- Positions recorded by `occPositions` are the bounded occurrence
starts. -/
theorem mem_occPositions (needle hay : Str) (i : Nat) :
    i ∈ occPositions needle hay
      ↔ i ≤ hay.length ∧ begins needle (hay.drop i) = true := by
  simp only [occPositions, List.mem_filter, List.mem_range, Nat.lt_succ_iff,
    decide_eq_true_eq]

/-- Occurrence positions are listed in strictly increasing order. -/
theorem occPositions_pairwise (needle hay : Str) :
    (occPositions needle hay).Pairwise (· < ·) :=
  (List.pairwise_lt_range _).sublist (List.filter_sublist _)

/-- The last element of a strictly increasing list is its maximum. -/
theorem getLast?_eq_max_of_pairwise (l : List Nat) (a : Nat)
    (hp : l.Pairwise (· < ·)) (ha : a ∈ l) (hmax : ∀ b ∈ l, b ≤ a) :
    l.getLast? = some a := by
  induction l with
  | nil => cases ha
  | cons x xs ih =>
    cases xs with
    | nil =>
      rcases List.mem_singleton.mp ha with rfl
      rfl
    | cons y ys =>
      rw [List.getLast?_cons_cons]
      have hp' := (List.pairwise_cons.mp hp).2
      have hrel := (List.pairwise_cons.mp hp).1
      have hay : a ∈ y :: ys := by
        cases ha with
        | head =>
          exfalso
          have hyx : y ≤ a := hmax y (by simp)
          have : a < y := hrel y (by simp)
          omega
        | tail b h =>
          exact h
      exact ih hp' hay fun b hb => hmax b (List.mem_cons_of_mem _ hb)

/-- The last element of a list is a member. -/
theorem mem_of_getLast?_eq (l : List Nat) (a : Nat) (h : l.getLast? = some a) :
    a ∈ l := by
  induction l with
  | nil => cases h
  | cons x xs ih =>
    cases xs with
    | nil =>
      cases h
      simp
    | cons y ys =>
      rw [List.getLast?_cons_cons] at h
      exact List.mem_cons_of_mem _ (ih h)

/-- In a strictly increasing list, every element is at most the last. -/
theorem le_of_getLast?_pairwise (l : List Nat) (j : Nat)
    (hp : l.Pairwise (· < ·)) (hl : l.getLast? = some j) :
    ∀ a ∈ l, a ≤ j := by
  induction l with
  | nil => intro a ha; cases ha
  | cons x xs ih =>
    cases xs with
    | nil =>
      cases hl
      intro a ha
      rcases List.mem_singleton.mp ha with rfl
      exact le_refl _
    | cons y ys =>
      rw [List.getLast?_cons_cons] at hl
      have hp' := (List.pairwise_cons.mp hp).2
      have hrel := (List.pairwise_cons.mp hp).1
      intro a ha
      cases ha with
      | head =>
        have hy : y ≤ j := ih hp' hl y (by simp)
        have hxy : x < y := hrel y (by simp)
        omega
      | tail b h =>
        exact ih hp' hl a h

/-- A string has no nontrivial border when no proper suffix equals the
prefix of the same length; such a separator cannot overlap itself, so its
occurrences in any string never straddle one another. -/
def borderFree (m : Str) : Prop :=
  ∀ k, k < m.length → 0 < k → m.drop k ≠ m.take (m.length - k)

/-- The marker `CONFIDENCE:` has no nontrivial border. -/
theorem confMarker_borderFree : borderFree confMarker := by
  unfold borderFree confMarker
  decide

/-- In `a ++ m ++ b` with `m` border-free and not occurring in `b`, the
last occurrence of `m` starts exactly at `|a|`. -/
theorem occPositions_last_sandwich (m a b : Str) (hm : 0 < m.length)
    (hbf : borderFree m) (hb : containsSub m b = false) :
    (occPositions m (a ++ (m ++ b))).getLast? = some a.length := by
  refine getLast?_eq_max_of_pairwise _ _ (occPositions_pairwise m _) ?_ ?_
  · rw [mem_occPositions]
    refine ⟨by simp [List.length_append], ?_⟩
    rw [List.drop_left]
    exact begins_append m b
  · intro i hi
    rw [mem_occPositions] at hi
    obtain ⟨hlen, hbeg⟩ := hi
    by_contra hgt
    push_neg at hgt
    rw [List.length_append, List.length_append] at hlen
    rcases lt_or_le i (a.length + m.length) with hlt | hge
    · have hk : i - a.length < m.length := by omega
      have hk0 : 0 < i - a.length := by omega
      have hdrop : (a ++ (m ++ b)).drop i = m.drop (i - a.length) ++ b := by
        rw [List.drop_append_eq_append_drop,
            List.drop_eq_nil_of_le (show a.length ≤ i by omega), List.nil_append,
            List.drop_append_eq_append_drop,
            show i - a.length - m.length = 0 by omega, List.drop_zero]
      rw [hdrop] at hbeg
      obtain ⟨t, ht⟩ := (begins_iff _ _).mp hbeg
      have hborder : m.drop (i - a.length) = m.take (m.length - (i - a.length)) := by
        have h1 : (m.drop (i - a.length) ++ b).take (m.length - (i - a.length))
            = m.drop (i - a.length) :=
          List.take_left' (by rw [List.length_drop])
        have h2 : (m ++ t).take (m.length - (i - a.length))
            = m.take (m.length - (i - a.length)) := by
          rw [List.take_append_eq_append_take,
              show m.length - (i - a.length) - m.length = 0 by omega,
              List.take_zero, List.append_nil]
        rw [← h1, ht, h2]
      exact hbf (i - a.length) hk hk0 hborder
    · have hdrop : (a ++ (m ++ b)).drop i = b.drop (i - a.length - m.length) := by
        rw [List.drop_append_eq_append_drop,
            List.drop_eq_nil_of_le (show a.length ≤ i by omega), List.nil_append,
            List.drop_append_eq_append_drop,
            List.drop_eq_nil_of_le (show m.length ≤ i - a.length by omega),
            List.nil_append]
      rw [hdrop] at hbeg
      rcases le_or_lt (i - a.length - m.length) b.length with hj | hj
      · have hcb : containsSub m b = true := (containsSub_iff _ _).mpr ⟨_, hj, hbeg⟩
        rw [hcb] at hb
        cases hb
      · rw [List.drop_eq_nil_of_le (le_of_lt hj)] at hbeg
        cases m with
        | nil => simp at hm
        | cons c cs => simp [begins] at hbeg

/-- The marker occurs in every sandwich string. -/
theorem containsSub_sandwich (m a b : Str) :
    containsSub m (a ++ (m ++ b)) = true :=
  (containsSub_iff _ _).mpr
    ⟨a.length, by simp [List.length_append],
      by rw [List.drop_left]; exact begins_append m b⟩

/-- `rsplit(sep, 1)[0]` on a sandwich string returns the part before the
last occurrence. -/
theorem beforeLast_sandwich (m a b : Str) (hm : 0 < m.length)
    (hbf : borderFree m) (hb : containsSub m b = false) :
    beforeLast m (a ++ (m ++ b)) = a := by
  unfold beforeLast
  rw [occPositions_last_sandwich m a b hm hbf hb]
  exact List.take_left a (m ++ b)

/-- Claim C5: for a raw response containing the marker, the displayed
text is the text strictly before the LAST occurrence of `CONFIDENCE:`,
stripped of surrounding whitespace: writing the response as
`a ++ CONFIDENCE: ++ b` with no further marker in `b` (`a` may itself
contain markers), the parser returns `strip(a)`; and conversely every
response containing the marker decomposes this way. -/
theorem parse_text_before_last_marker (a b : Str)
    (hb : containsSub confMarker b = false) :
    (parse_answer_response (a ++ (confMarker ++ b))).text = stripWS a
  ∧ (∀ r : Str, containsSub confMarker r = true →
      ∃ a2 b2 : Str, r = a2 ++ (confMarker ++ b2)
        ∧ containsSub confMarker b2 = false
        ∧ (parse_answer_response r).text = stripWS a2) := by
  have hmlen : 0 < confMarker.length := by decide
  have hbf : borderFree confMarker := confMarker_borderFree
  constructor
  · simp only [parse_answer_response, containsSub_sandwich confMarker a b, if_true]
    rw [beforeLast_sandwich confMarker a b hmlen hbf hb]
  · intro r hr
    obtain ⟨i0, hi0, hbeg0⟩ := (containsSub_iff _ _).mp hr
    have hmem : i0 ∈ occPositions confMarker r :=
      (mem_occPositions _ _ _).mpr ⟨hi0, hbeg0⟩
    obtain ⟨j, hj⟩ : ∃ j, (occPositions confMarker r).getLast? = some j := by
      cases hgl : (occPositions confMarker r).getLast? with
      | some j => exact ⟨j, rfl⟩
      | none =>
        rw [List.getLast?_eq_none_iff] at hgl
        rw [hgl] at hmem
        cases hmem
    have hjmem := mem_of_getLast?_eq _ _ hj
    rw [mem_occPositions] at hjmem
    obtain ⟨hjlen, hjbeg⟩ := hjmem
    have hmax := le_of_getLast?_pairwise _ _ (occPositions_pairwise confMarker r) hj
    obtain ⟨t, ht⟩ := (begins_iff _ _).mp hjbeg
    have hdecomp : r = r.take j ++ (confMarker ++ t) := by
      have h0 := List.take_append_drop j r
      rw [ht] at h0
      exact h0.symm
    have hrlen : r.length = j + (confMarker.length + t.length) := by
      have h0 := congrArg List.length hdecomp
      rw [List.length_append, List.length_append, List.length_take,
        min_eq_left hjlen] at h0
      exact h0
    refine ⟨r.take j, t, hdecomp, ?_, ?_⟩
    · by_contra hc
      rw [Bool.not_eq_false] at hc
      obtain ⟨i2, hi2, hbeg2⟩ := (containsSub_iff _ _).mp hc
      have hdropm : r.drop (j + confMarker.length + i2) = t.drop i2 := by
        have h0 : r.drop (j + confMarker.length + i2)
            = (confMarker ++ t).drop (confMarker.length + i2) := by
          rw [← ht, List.drop_drop]
          congr 1
          omega
        rw [h0, List.drop_append_eq_append_drop,
            List.drop_eq_nil_of_le (show confMarker.length ≤ confMarker.length + i2 by omega),
            List.nil_append]
        congr 1
        omega
      have hmem2 : (j + confMarker.length + i2) ∈ occPositions confMarker r := by
        rw [mem_occPositions]
        exact ⟨by omega, by rw [hdropm]; exact hbeg2⟩
      have := hmax _ hmem2
      omega
    · simp only [parse_answer_response, hr, if_true]
      unfold beforeLast
      rw [hj]

/-- Witness for C5: with two markers in the input, the split happens at
the second (last) one, keeping the earlier marker inside the displayed
text. -/
theorem parse_text_before_last_marker_witness :
    (parse_answer_response
        (str "x CONFIDENCE: 0.9 y " ++ (confMarker ++ str " 0.2"))).text
      = stripWS (str "x CONFIDENCE: 0.9 y ") :=
  (parse_text_before_last_marker (str "x CONFIDENCE: 0.9 y ") (str " 0.2")
    (by decide)).1


/-! ### Citation numbering invariant -/

/-- The citation list carries consecutive numbers starting at `n`. -/
def numberedFrom : Nat → List Citation → Prop
  | _, [] => True
  | n, c :: cs => c.num = n ∧ numberedFrom (n + 1) cs

/-- Appending an entry numbered `n + length` preserves consecutive
numbering. -/
theorem numberedFrom_append (cs : List Citation) (n : Nat) (c : Citation)
    (h : numberedFrom n cs) (hc : c.num = n + cs.length) :
    numberedFrom n (cs ++ [c]) := by
  induction cs generalizing n with
  | nil =>
    refine ⟨?_, trivial⟩
    simpa using hc
  | cons x xs ih =>
    obtain ⟨hx, hxs⟩ := h
    refine ⟨hx, ih (n + 1) hxs ?_⟩
    simp only [List.length_cons] at hc
    omega

/-- Consecutive numbering read off entry-wise. -/
theorem numberedFrom_get (cs : List Citation) (n : Nat) (h : numberedFrom n cs) :
    ∀ i (hi : i < cs.length), (cs.get ⟨i, hi⟩).num = n + i := by
  induction cs generalizing n with
  | nil =>
    intro i hi
    exact absurd hi (by simp)
  | cons x xs ih =>
    intro i hi
    obtain ⟨hx, hxs⟩ := h
    cases i with
    | zero => simpa using hx
    | succ k =>
      have hk := ih (n + 1) hxs k (by simpa [Nat.succ_lt_succ_iff] using hi)
      have : ((x :: xs).get ⟨k + 1, hi⟩) = xs.get ⟨k, by simpa [Nat.succ_lt_succ_iff] using hi⟩ := rfl
      rw [this, hk]
      omega

/-- Pass 1 preserves consecutive numbering: a new entry always receives
`len(citations) + 1`. -/
theorem pass1Step_numbered (answer_text : Str)
    (acc : List Citation × List Str × List (Str × Nat)) (chunk : Chunk)
    (h : numberedFrom 1 acc.1) :
    numberedFrom 1 (pass1Step answer_text acc chunk).1 := by
  obtain ⟨cits, seen, cmap⟩ := acc
  dsimp only [pass1Step]
  split
  · exact h
  · split
    · exact numberedFrom_append cits 1 _ h (by simp [Nat.add_comm])
    · exact h

/-- The pass-1 fold preserves consecutive numbering. -/
theorem pass1_numbered (answer_text : Str) (chunks : List Chunk)
    (acc : List Citation × List Str × List (Str × Nat))
    (h : numberedFrom 1 acc.1) :
    numberedFrom 1 (chunks.foldl (pass1Step answer_text) acc).1 := by
  induction chunks generalizing acc with
  | nil => exact h
  | cons c cs ih => exact ih _ (pass1Step_numbered answer_text acc c h)

/-- Pass 2 preserves consecutive numbering: an appended entry for an
unknown source also receives `len(citations) + 1`. -/
theorem pass2Sub_numbered (fuel : Nat) (text : Str) (cits : List Citation)
    (cmap : List (Str × Nat)) (h : numberedFrom 1 cits) :
    numberedFrom 1 (pass2Sub fuel text cits cmap).2.1 := by
  induction fuel generalizing text cits cmap with
  | zero =>
    cases text with
    | nil => exact h
    | cons c rest => exact h
  | succ f ih =>
    cases text with
    | nil => exact h
    | cons c rest =>
      dsimp only [pass2Sub]
      cases hm : matchSrcAt true (str "[Source:") (fun ch => ch == ',' || ch == ']') ']' (c :: rest) with
      | none => exact ih rest cits cmap h
      | some x =>
        obtain ⟨g1, page, after⟩ := x
        dsimp only
        cases hf : cmap.find? fun kv => kv.1 == citationKey (stripWS g1) page with
        | some kv => exact ih after cits cmap h
        | none =>
          exact ih after _ _ (numberedFrom_append cits 1 _ h (by simp [Nat.add_comm]))

/-- Claim C9: in the output of `extract_and_format_citations`, the `num`
field of the entry at 0-based position `i` in the citation list is always
`i + 1` — numbers are consecutive 1-based integers in list order, whether
the entry was created in pass 1 or appended in pass 2. -/
theorem citations_numbered_consecutively (answer_text : Str) (chunks : List Chunk) :
    ∀ i (hi : i < (extract_and_format_citations answer_text chunks).2.length),
      ((extract_and_format_citations answer_text chunks).2.get ⟨i, hi⟩).num = i + 1 := by
  intro i hi
  have h1 : numberedFrom 1 (chunks.foldl (pass1Step answer_text) ([], [], [])).1 :=
    pass1_numbered answer_text chunks ([], [], []) trivial
  have h2 := pass2Sub_numbered answer_text.length answer_text
    (chunks.foldl (pass1Step answer_text) ([], [], [])).1
    (chunks.foldl (pass1Step answer_text) ([], [], [])).2.2 h1
  have h3 := numberedFrom_get _ _ h2 i hi
  rw [Nat.add_comm] at h3
  exact h3

/-- Witness for C9: with no retrieved chunks, a model-invented source
still lands at position 0 with number 1. -/
theorem citations_numbered_consecutively_witness :
    ((extract_and_format_citations (str "See [Source: Doc, Page 1].") []).2.get
        ⟨0, by decide⟩).num = 0 + 1 :=
  citations_numbered_consecutively (str "See [Source: Doc, Page 1].") [] 0 (by decide)


/-- Counterexample to claim C7 as stated: the quantifier "any chunk list
containing a chunk with doc_name 10-K, page 5" fails — a preceding chunk
whose page is also 5 is detected by the `page 5` mention test, takes
citation number 1, and the 10-K chunk becomes number 2: the bracketed
source is replaced by `[2]` and the citation list has two entries. -/
theorem citation_roundtrip_cex :
    (extract_and_format_citations (str "Revenue grew per [Source: 10-K, Page 5].")
        [⟨"c0", str "other text", "d0", str "Other", 5, 1⟩,
         ⟨"c1", str "chunk one text", "d1", str "10-K", 5, 0⟩]).1
      = str "Revenue grew per [2]."
  ∧ (extract_and_format_citations (str "Revenue grew per [Source: 10-K, Page 5].")
        [⟨"c0", str "other text", "d0", str "Other", 5, 1⟩,
         ⟨"c1", str "chunk one text", "d1", str "10-K", 5, 0⟩]).2.length = 2 :=
  ⟨by decide, by decide⟩

/-- Claim C7 (amended): for the answer text
`Revenue grew per [Source: 10-K, Page 5].` and a chunk list whose only
chunk has `doc_name = "10-K"` and `page = 5` (its other fields arbitrary),
the formatter replaces the bracketed source with `[1]` and returns exactly
one citation entry, with `num = 1`, `doc_name = "10-K"`, `page = 5`. -/
theorem citation_roundtrip_single (c : Chunk)
    (h1 : c.doc_name = str "10-K") (h2 : c.page = 5) :
    (extract_and_format_citations
        (str "Revenue grew per [Source: 10-K, Page 5].") [c]).1
      = str "Revenue grew per [1]."
  ∧ (extract_and_format_citations
        (str "Revenue grew per [Source: 10-K, Page 5].") [c]).2.map
        (fun cit => (cit.num, cit.doc_name, cit.page))
      = [(1, str "10-K", 5)] := by
  obtain ⟨cid, ctext, cdid, cname, cpage, cidx⟩ := c
  dsimp only at h1 h2
  subst h1
  subst h2
  have hp1a : (List.foldl (pass1Step (str "Revenue grew per [Source: 10-K, Page 5].")) ([], [], [])
      [(⟨cid, ctext, cdid, str "10-K", 5, cidx⟩ : Chunk)]).1
      = [⟨cdid, str "10-K", 5, truncateExcerpt ctext, cid, 1⟩] := rfl
  have hp1b : (List.foldl (pass1Step (str "Revenue grew per [Source: 10-K, Page 5].")) ([], [], [])
      [(⟨cid, ctext, cdid, str "10-K", 5, cidx⟩ : Chunk)]).2.2
      = [(citationKey (str "10-K") 5, 1)] := rfl
  simp only [extract_and_format_citations]
  rw [hp1a, hp1b]
  exact ⟨rfl, rfl⟩

/-- Witness for C7 (amended): the concrete single-chunk instance. -/
theorem citation_roundtrip_single_witness :
    (extract_and_format_citations
        (str "Revenue grew per [Source: 10-K, Page 5].")
        [⟨"c1", str "chunk one text", "d1", str "10-K", 5, 0⟩]).1
      = str "Revenue grew per [1]."
  ∧ (extract_and_format_citations
        (str "Revenue grew per [Source: 10-K, Page 5].")
        [⟨"c1", str "chunk one text", "d1", str "10-K", 5, 0⟩]).2.map
        (fun cit => (cit.num, cit.doc_name, cit.page))
      = [(1, str "10-K", 5)] :=
  citation_roundtrip_single ⟨"c1", str "chunk one text", "d1", str "10-K", 5, 0⟩
    rfl rfl

/-- Claim C10: the pass-2 pattern matches case-insensitively but the
citation-map key is compared case-sensitively, so an inline marker whose
document name differs only in letter case from the pass-1 chunk name is
not reused: the same `(doc_name, page)` source (up to case) receives two
different citation numbers, the second entry having empty
`doc_id`/`text`/`chunk_id`. -/
theorem citation_case_mismatch_duplicates :
    (extract_and_format_citations (str "Cited [Source: 10-k, Page 5].")
        [⟨"c1", str "chunk one text", "d1", str "10-K", 5, 0⟩]).2
      = [⟨"d1", str "10-K", 5, str "chunk one text", "c1", 1⟩,
         ⟨"", str "10-k", 5, [], "", 2⟩]
  ∧ lower (str "10-k") = lower (str "10-K") :=
  ⟨by decide, by decide⟩


/-! ### Batch loop lemmas -/

/-- One batch iteration keeps the project id. -/
theorem batchStep_project_id (envs : Nat → Env)
    (acc : BatchResult × DBState × Nat) (q : Question) :
    (batchStep envs acc q).1.project_id = acc.1.project_id := by
  obtain ⟨res, db, k⟩ := acc
  dsimp only [batchStep]
  cases hg : generate_answer (envs k) q db with
  | ok x =>
    obtain ⟨a, db2, n⟩ := x
    rfl
  | error e => rfl

/-- One batch iteration keeps the total. -/
theorem batchStep_total (envs : Nat → Env)
    (acc : BatchResult × DBState × Nat) (q : Question) :
    (batchStep envs acc q).1.total = acc.1.total := by
  obtain ⟨res, db, k⟩ := acc
  dsimp only [batchStep]
  cases hg : generate_answer (envs k) q db with
  | ok x =>
    obtain ⟨a, db2, n⟩ := x
    rfl
  | error e => rfl

/-- One batch iteration adds exactly one success or one error entry. -/
theorem batchStep_count (envs : Nat → Env)
    (acc : BatchResult × DBState × Nat) (q : Question) :
    (batchStep envs acc q).1.generated + (batchStep envs acc q).1.errors.length
      = acc.1.generated + acc.1.errors.length + 1 := by
  obtain ⟨res, db, k⟩ := acc
  dsimp only [batchStep]
  cases hg : generate_answer (envs k) q db with
  | ok x =>
    obtain ⟨a, db2, n⟩ := x
    dsimp only
    omega
  | error e =>
    dsimp only
    rw [List.length_append]
    dsimp only [List.length_cons, List.length_nil]
    omega

/-- Error entries are never dropped by an iteration. -/
theorem batchStep_errors_mono (envs : Nat → Env)
    (acc : BatchResult × DBState × Nat) (q : Question) :
    ∀ p ∈ acc.1.errors, p ∈ (batchStep envs acc q).1.errors := by
  obtain ⟨res, db, k⟩ := acc
  dsimp only [batchStep]
  cases hg : generate_answer (envs k) q db with
  | ok x =>
    obtain ⟨a, db2, n⟩ := x
    exact fun p hp => hp
  | error e =>
    exact fun p hp => List.mem_append_left _ hp

/-- A new error entry carries the id of the question just processed. -/
theorem batchStep_errors_new (envs : Nat → Env)
    (acc : BatchResult × DBState × Nat) (q : Question) :
    ∀ p ∈ (batchStep envs acc q).1.errors, p ∈ acc.1.errors ∨ p.1 = q.id := by
  obtain ⟨res, db, k⟩ := acc
  dsimp only [batchStep]
  cases hg : generate_answer (envs k) q db with
  | ok x =>
    obtain ⟨a, db2, n⟩ := x
    exact fun p hp => Or.inl hp
  | error e =>
    intro p hp
    rcases List.mem_append.mp hp with h | h
    · exact Or.inl h
    · rcases List.mem_singleton.mp h with rfl
      exact Or.inr rfl

/-- A stored row survives an iteration (the table only grows). -/
theorem batchStep_db_mono (envs : Nat → Env)
    (acc : BatchResult × DBState × Nat) (q : Question) :
    ∀ qid a, findAnswer acc.2.1 qid = some a →
      findAnswer (batchStep envs acc q).2.1 qid = some a := by
  obtain ⟨res, db, k⟩ := acc
  dsimp only [batchStep]
  cases hg : generate_answer (envs k) q db with
  | ok x =>
    obtain ⟨a0, db2, n⟩ := x
    intro qid a h
    rcases generate_answer_ok_db (envs k) q db a0 db2 n hg with rfl | rfl
    · exact h
    · exact findAnswer_append_of_some db [a0] qid a h
  | error e =>
    exact fun qid a h => h

/-- If the iteration for `q` did not record an error under `q.id`, the
question has a stored row afterwards. -/
theorem batchStep_success_stored (envs : Nat → Env)
    (acc : BatchResult × DBState × Nat) (q : Question)
    (h : ∀ p ∈ (batchStep envs acc q).1.errors, p.1 ≠ q.id) :
    ((findAnswer (batchStep envs acc q).2.1 q.id).isSome) = true := by
  obtain ⟨res, db, k⟩ := acc
  dsimp only [batchStep] at h ⊢
  cases hg : generate_answer (envs k) q db with
  | ok x =>
    obtain ⟨a0, db2, n⟩ := x
    rw [generate_answer_ok_find (envs k) q db a0 db2 n hg]
    rfl
  | error e =>
    exfalso
    rw [hg] at h
    exact h (q.id, e)
      (List.mem_append_right _ (List.mem_singleton_self _)) rfl

/-- Invariant of the whole batch fold: identity fields preserved, one
outcome per question, errors only accumulate and name processed
questions, stored rows survive, and every processed question without an
error entry ends with a stored row. -/
theorem batch_loop_invariant (envs : Nat → Env) (qs : List Question)
    (acc : BatchResult × DBState × Nat) :
    ((qs.foldl (batchStep envs) acc).1.project_id = acc.1.project_id)
  ∧ ((qs.foldl (batchStep envs) acc).1.total = acc.1.total)
  ∧ ((qs.foldl (batchStep envs) acc).1.generated
      + (qs.foldl (batchStep envs) acc).1.errors.length
      = acc.1.generated + acc.1.errors.length + qs.length)
  ∧ (∀ p ∈ acc.1.errors, p ∈ (qs.foldl (batchStep envs) acc).1.errors)
  ∧ (∀ p ∈ (qs.foldl (batchStep envs) acc).1.errors,
      p ∈ acc.1.errors ∨ ∃ q ∈ qs, p.1 = q.id)
  ∧ (∀ qid a, findAnswer acc.2.1 qid = some a →
      findAnswer (qs.foldl (batchStep envs) acc).2.1 qid = some a)
  ∧ (∀ q ∈ qs, (∀ p ∈ (qs.foldl (batchStep envs) acc).1.errors, p.1 ≠ q.id) →
      ((findAnswer (qs.foldl (batchStep envs) acc).2.1 q.id).isSome) = true) := by
  induction qs generalizing acc with
  | nil =>
    refine ⟨rfl, rfl, by simp, fun p hp => hp, fun p hp => Or.inl hp,
      fun qid a h => h, ?_⟩
    intro q hq
    cases hq
  | cons q qs ih =>
    obtain ⟨ih1, ih2, ih3, ih4, ih5, ih6, ih7⟩ := ih (batchStep envs acc q)
    simp only [List.foldl_cons]
    refine ⟨?_, ?_, ?_, ?_, ?_, ?_, ?_⟩
    · rw [ih1, batchStep_project_id]
    · rw [ih2, batchStep_total]
    · have h2 := batchStep_count envs acc q
      simp only [List.length_cons]
      omega
    · intro p hp
      exact ih4 p (batchStep_errors_mono envs acc q p hp)
    · intro p hp
      rcases ih5 p hp with h | ⟨q2, hq2, he⟩
      · rcases batchStep_errors_new envs acc q p h with h2 | h2
        · exact Or.inl h2
        · exact Or.inr ⟨q, List.mem_cons_self _ _, h2⟩
      · exact Or.inr ⟨q2, List.mem_cons_of_mem _ hq2, he⟩
    · intro qid a h
      exact ih6 qid a (batchStep_db_mono envs acc q qid a h)
    · intro q2 hq2 hne
      rcases List.mem_cons.mp hq2 with rfl | hmem
      · have hstep : ∀ p ∈ (batchStep envs acc q2).1.errors, p.1 ≠ q2.id :=
          fun p hp => hne p (ih4 p hp)
        have hsome := batchStep_success_stored envs acc q2 hstep
        rcases hfind : findAnswer (batchStep envs acc q2).2.1 q2.id with _ | a
        · rw [hfind] at hsome
          cases hsome
        · rw [ih6 q2.id a hfind]
          rfl
      · exact ih7 q2 hmem hne

/-- Claim C8: the non-streaming project batch processes every question,
catching per-question exceptions into `{question_id, error}` entries and
continuing: the result carries `project_id`, `total` equal to the number
of questions, exactly one outcome (success or error entry) per question,
error entries naming questions of the project, and every question without
an error entry — in particular every question other than the failing ones
— holding a stored answer in the final table. -/
theorem batch_partial_failure (envs : Nat → Env) (project : Project)
    (db : DBState) :
    ((generate_answers_for_project envs project db).1.project_id = project.id)
  ∧ ((generate_answers_for_project envs project db).1.total
      = project.questions.length)
  ∧ ((generate_answers_for_project envs project db).1.generated
      + (generate_answers_for_project envs project db).1.errors.length
      = project.questions.length)
  ∧ (∀ p ∈ (generate_answers_for_project envs project db).1.errors,
      ∃ q ∈ project.questions, p.1 = q.id)
  ∧ (∀ q ∈ project.questions,
      (∀ p ∈ (generate_answers_for_project envs project db).1.errors,
        p.1 ≠ q.id) →
      ((findAnswer (generate_answers_for_project envs project db).2 q.id).isSome)
        = true) := by
  obtain ⟨h1, h2, h3, _h4, h5, _h6, h7⟩ := batch_loop_invariant envs
    project.questions
    ({ project_id := project.id, total := project.questions.length,
       generated := 0, errors := [] }, db, 0)
  refine ⟨h1, h2, by simpa using h3, ?_, h7⟩
  intro p hp
  rcases h5 p hp with h | h
  · cases h
  · exact h

/-- Witness for C8: a three-question project where the second question's
retrieval raises `boom` ends with `total = 3`, one error entry naming
`q2`, and stored answers for `q1` and `q3`. -/
theorem batch_partial_failure_witness :
    ((generate_answers_for_project
        (fun k => if k = 1
          then ⟨fun _ _ => .error (str "boom"), fun _ _ _ => .failure [], "u"⟩
          else ⟨fun _ _ => .ok [], fun _ _ _ => .failure [], "u"⟩)
        ⟨"p", [⟨"q1", str "A?"⟩, ⟨"q2", str "B?"⟩, ⟨"q3", str "C?"⟩]⟩ []).1.total
      = 3)
  ∧ ((findAnswer (generate_answers_for_project
        (fun k => if k = 1
          then ⟨fun _ _ => .error (str "boom"), fun _ _ _ => .failure [], "u"⟩
          else ⟨fun _ _ => .ok [], fun _ _ _ => .failure [], "u"⟩)
        ⟨"p", [⟨"q1", str "A?"⟩, ⟨"q2", str "B?"⟩, ⟨"q3", str "C?"⟩]⟩ []).2
        "q1").isSome = true)
  ∧ ((findAnswer (generate_answers_for_project
        (fun k => if k = 1
          then ⟨fun _ _ => .error (str "boom"), fun _ _ _ => .failure [], "u"⟩
          else ⟨fun _ _ => .ok [], fun _ _ _ => .failure [], "u"⟩)
        ⟨"p", [⟨"q1", str "A?"⟩, ⟨"q2", str "B?"⟩, ⟨"q3", str "C?"⟩]⟩ []).2
        "q3").isSome = true) := by
  refine ⟨(batch_partial_failure _ _ _).2.1, ?_, ?_⟩
  · exact (batch_partial_failure _ _ _).2.2.2.2 ⟨"q1", str "A?"⟩ (by decide)
      (by decide)
  · exact (batch_partial_failure _ _ _).2.2.2.2 ⟨"q3", str "C?"⟩ (by decide)
      (by decide)

end DD
